import Mathlib

/-!
Shallow embedding of the fabric-ca server bootstrap core (lib/server.go and
the `server init` command) and proofs about its specified behaviour:
the enrollment-quota policy, the affiliation bootstrap loader, key-material
bootstrap, identity bootstrap, database initialization and endpoint
registration.
-/

namespace FabricCA

/-- Embeds `Server.getMaxEnrollments` (lib/server.go).  Go `int` comparisons
carry over to `Int` directly; the error results keep the source's messages
minus the formatted numbers. -/
def getMaxEnrollments (configuredMax requestedMax : Int) : Except String Int :=
  if requestedMax < 0 then
    Except.ok configuredMax
  else if configuredMax == 0 then
    Except.ok requestedMax
  else if requestedMax == 0 && configuredMax != 0 then
    Except.error "Infinite enrollments is not permitted"
  else if requestedMax > configuredMax then
    Except.error "Max enrollments is not permitted"
  else
    Except.ok requestedMax

/-- Embeds `affiliationPath` (lib/server.go): the dotted path of a node named
`name` under accumulated parent path `parent`. -/
def affiliationPath (name parent : String) : String :=
  if parent = "" then name else parent ++ "." ++ name

/-- The dynamic shapes a nested affiliation configuration node can take in
`Server.loadAffiliationsTableR` (lib/server.go): Go `nil`, `string`,
`[]string`, `[]interface\x7b\x7d`, `map[string]interface\x7b\x7d`, and a
constructor `other` standing for every remaining dynamic type, which the
source's `default` branch converts with an unchecked type assertion. -/
inductive AffNode where
  | nullNode : AffNode
  | str : String → AffNode
  | strList : List String → AffNode
  | seq : List AffNode → AffNode
  | mapping : List (String × AffNode) → AffNode
  | other : AffNode
deriving Repr

mutual

/-- Embeds `Server.loadAffiliationsTableR` (lib/server.go).  The registry
side effects are recorded as the ordered list of `InsertGroup(path,
parentPath)` calls; `none` models the panic of the unchecked type assertion
in the `default` branch. -/
def loadAffiliationsTableR : AffNode → String → Option (List (String × String))
  | AffNode.nullNode, _ => some []
  | AffNode.str s, parentPath =>
      some [(affiliationPath s parentPath, parentPath)]
  | AffNode.strList l, parentPath => loadStrListR l parentPath
  | AffNode.seq l, parentPath => loadSeqR l parentPath
  | AffNode.mapping l, parentPath => loadMappingR l parentPath
  | AffNode.other, _ => none
termination_by n _ => sizeOf n

/-- The loop body of the `[]string` case of `loadAffiliationsTableR`: one
recursive call per element, in order. -/
def loadStrListR : List String → String → Option (List (String × String))
  | [], _ => some []
  | s :: rest, parentPath =>
      match loadAffiliationsTableR (AffNode.str s) parentPath with
      | none => none
      | some tr =>
        match loadStrListR rest parentPath with
        | none => none
        | some trs => some (tr ++ trs)
termination_by l _ => sizeOf l
decreasing_by
  all_goals simp_wf
  all_goals (cases rest <;> simp_arith)

/-- The loop body of the `[]interface\x7b\x7d` case of
`loadAffiliationsTableR`: one recursive call per element, in order. -/
def loadSeqR : List AffNode → String → Option (List (String × String))
  | [], _ => some []
  | ele :: rest, parentPath =>
      match loadAffiliationsTableR ele parentPath with
      | none => none
      | some tr =>
        match loadSeqR rest parentPath with
        | none => none
        | some trs => some (tr ++ trs)
termination_by l _ => sizeOf l

/-- The loop body of the map case of `loadAffiliationsTableR`: for each
entry, insert the node's own path first, then recurse into the child with
the new path as parent. -/
def loadMappingR : List (String × AffNode) → String → Option (List (String × String))
  | [], _ => some []
  | (name, ele) :: rest, parentPath =>
      let path := affiliationPath name parentPath
      match loadAffiliationsTableR ele path with
      | none => none
      | some tr =>
        match loadMappingR rest parentPath with
        | none => none
        | some trs => some ((path, parentPath) :: (tr ++ trs))
termination_by l _ => sizeOf l

end

/-- Embeds `Server.loadAffiliationsTable` (lib/server.go): the recursion is
started with the empty parent path. -/
def loadAffiliationsTable (tree : AffNode) : Option (List (String × String)) :=
  loadAffiliationsTableR tree ""

mutual

/-- An affiliation node is supported when it only uses the five dynamic
shapes handled by the `switch` of `loadAffiliationsTableR`. -/
def AffNode.supported : AffNode → Bool
  | AffNode.nullNode => true
  | AffNode.str _ => true
  | AffNode.strList _ => true
  | AffNode.seq l => supportedSeq l
  | AffNode.mapping l => supportedMap l
  | AffNode.other => false

/-- Every node of the list is supported. -/
def supportedSeq : List AffNode → Bool
  | [] => true
  | e :: rest => e.supported && supportedSeq rest

/-- Every value of the map entries is supported. -/
def supportedMap : List (String × AffNode) → Bool
  | [] => true
  | (_, e) :: rest => e.supported && supportedMap rest

end

/-- Boolean membership of a string in a list. -/
def memB (p : String) : List String → Bool
  | [] => false
  | x :: rest => (p == x) || memB p rest

/-- An insertion trace is parent-respecting relative to a set `ins` of
already-inserted paths: each entry's parent path is either empty (root
level) or was inserted earlier. -/
def parentsRespected (ins : List String) : List (String × String) → Bool
  | [] => true
  | (path, parent) :: rest =>
      (parent == "" || memB parent ins) && parentsRespected (path :: ins) rest

/-- The paths of an insertion trace, in insertion order. -/
def pathsOf (tr : List (String × String)) : List String :=
  tr.map Prod.fst

/-! ### File system and CA key material -/

/-- A file system: a list of (path, content, permission mode) entries. -/
abbrev FileSystem := List (String × String × Nat)

/-- Embeds `util.FileExists`. -/
def fileExists (fs : FileSystem) (path : String) : Bool :=
  fs.any (fun f => f.1 == path)

/-- Embeds `writeFile` (lib/server.go) / `ioutil.WriteFile`: an existing
file is truncated and rewritten keeping its mode; a new file is created
with the given permission mode. -/
def writeFileFS (fs : FileSystem) (path content : String) (perm : Nat) : FileSystem :=
  if fs.any (fun f => f.1 == path) then
    fs.map (fun f => if f.1 == path then (f.1, content, f.2.2) else f)
  else
    fs ++ [(path, content, perm)]

/-- The permission mode of a file, if present. -/
def fileMode (fs : FileSystem) (path : String) : Option Nat :=
  (fs.find? (fun f => f.1 == path)).map (fun f => f.2.2)

/-- The content of a file, if present. -/
def fileContent (fs : FileSystem) (path : String) : Option String :=
  (fs.find? (fun f => f.1 == path)).map (fun f => f.2.1)

/-- The CA file paths from `ServerConfig.CA` (after
`makeFileNamesAbsolute`). -/
structure CAConfig where
  keyfile : String
  certfile : String
deriving Repr, DecidableEq

/-- Embeds `Server.initKeyMaterial` (lib/server.go).  `gen` is the oracle
for `initca.New`, producing `(cert, key)` on success and `none` on failure;
everything else in the function is deterministic file-system logic: if not
renewing and both configured files exist, return success without touching
the file system; otherwise write the fresh key with mode 0600 and the
certificate with mode 0644. -/
def initKeyMaterial (renew : Bool) (ca : CAConfig) (gen : Option (String × String))
    (fs : FileSystem) : Except String FileSystem :=
  if !renew && fileExists fs ca.keyfile && fileExists fs ca.certfile then
    Except.ok fs
  else
    match gen with
    | none => Except.error "Failed to initialize CA"
    | some (cert, key) =>
        Except.ok (writeFileFS (writeFileFS fs ca.keyfile key 0o600) ca.certfile cert 0o644)

/-- Embeds `initMain` (the `fabric-ca server init` command).  `parse` is the
oracle for argument popping, stdin reading and JSON unmarshalling; `gen` is
the oracle for `initca.New`.  On success the command writes
`server-cert.pem` and then `server-key.pem` under the fabric-ca home
directory, both with permission mode 0755 as in the source. -/
def initMain (parse : Except String Unit) (gen : Option (String × String))
    (home : String) (fs : FileSystem) : Except String FileSystem :=
  match parse with
  | Except.error e => Except.error e
  | Except.ok _ =>
    match gen with
    | none => Except.error "Failed to initialize CA"
    | some (cert, key) =>
        Except.ok (writeFileFS
          (writeFileFS fs (home ++ "/server-cert.pem") cert 0o755)
          (home ++ "/server-key.pem") key 0o755)

/-! ### Registry, identities and bootstrap loading -/

/-- Embeds `spi.UserInfo` as used by `Server.addIdentity`. -/
structure UserInfo where
  name : String
  pass : String
  userType : String
  group : String
  attributes : List (String × String)
  maxEnrollments : Int
deriving Repr, DecidableEq

/-- Embeds `ServerConfigIdentity`. -/
structure ServerConfigIdentity where
  id : String
  pass : String
  idType : String
  affiliation : String
  attributes : List (String × String)
  maxEnrollments : Int
deriving Repr, DecidableEq

/-- The registry state: the users table and the affiliations (groups)
table. -/
structure Registry where
  users : List UserInfo
  groups : List (String × String)
deriving Repr, DecidableEq

/-- Embeds `registry.GetUser` restricted to existence: returns the stored
record for `id` when present (the error result the source discards is not
modelled). -/
def getUser (reg : Registry) (id : String) : Option UserInfo :=
  reg.users.find? (fun u => u.name == id)

/-- Embeds a successful `registry.InsertUser`. -/
def insertUser (reg : Registry) (u : UserInfo) : Registry :=
  { reg with users := reg.users ++ [u] }

/-- Embeds a successful `registry.InsertGroup` (`Server.addAffiliation`). -/
def insertGroup (reg : Registry) (path parentPath : String) : Registry :=
  { reg with groups := reg.groups ++ [(path, parentPath)] }

/-- Embeds `Server.convertAttrs`: the attribute map becomes a list of
name/value pairs. -/
def convertAttrs (attrs : List (String × String)) : List (String × String) :=
  attrs

/-- Embeds `Server.addIdentity` (lib/server.go).  `insertFails` is the
backend-failure oracle for `InsertUser`.  The second component of the
result is the list of identity names actually passed to `InsertUser`. -/
def addIdentity (configuredMax : Int) (insertFails : Bool) (reg : Registry)
    (id : ServerConfigIdentity) (errIfFound : Bool) :
    Except String (Registry × List String) :=
  match getUser reg id.id with
  | some _ =>
      if errIfFound then Except.error "Identity is already registered"
      else Except.ok (reg, [])
  | none =>
    match getMaxEnrollments configuredMax id.maxEnrollments with
    | Except.error e => Except.error e
    | Except.ok m =>
        if insertFails then Except.error "Failed to insert user"
        else Except.ok
          (insertUser reg
            { name := id.id, pass := id.pass, userType := id.idType,
              group := id.affiliation, attributes := convertAttrs id.attributes,
              maxEnrollments := m }, [id.id])

/-- Embeds `Server.loadUsersTable`: each configured identity is added with
`errIfFound = false`, stopping at the first error. -/
def loadUsersTable (configuredMax : Int) (insertFails : String → Bool)
    (reg : Registry) : List ServerConfigIdentity → Except String Registry
  | [] => Except.ok reg
  | id :: rest =>
    match addIdentity configuredMax (insertFails id.id) reg id false with
    | Except.error e => Except.error e
    | Except.ok (reg2, _) => loadUsersTable configuredMax insertFails reg2 rest

/-- Applies an insertion trace of the affiliation loader to the registry,
in order. -/
def applyInsertGroups (reg : Registry) (tr : List (String × String)) : Registry :=
  tr.foldl (fun r e => insertGroup r e.1 e.2) reg

/-- `Server.loadAffiliationsTable` acting on the registry: the recursion's
insertions are applied in order; the panic of the unchecked type assertion
is modelled as an abort. -/
def loadAffiliationsTableReg (tree : AffNode) (reg : Registry) : Except String Registry :=
  match loadAffiliationsTable tree with
  | none => Except.error "panic: interface conversion"
  | some tr => Except.ok (applyInsertGroups reg tr)

/-! ### Database initialization, Init and Start -/

/-- The database section of `ServerConfig`. -/
structure DBConfig where
  dbType : String
  datasource : String
deriving Repr, DecidableEq

/-- The slice of `ServerConfig` that `initDB` reads. -/
structure ServerConfigM where
  db : DBConfig
  registryMaxEnrollments : Int
  identities : List ServerConfigIdentity
  affiliations : AffNode
  ldapEnabled : Bool

/-- The server fields mutated during `initDB`: the registry contents, and
whether the certificate-DB accessor and the user registry have been set. -/
structure ServerState where
  registry : Registry
  certDBSet : Bool
  registrySet : Bool
deriving Repr, DecidableEq

/-- Embeds `Server.initUserRegistry`: with LDAP enabled the outcome of
`ldap.NewClient` (oracle `ldapResult`) is returned; otherwise the DB-backed
accessor is installed and the call succeeds. -/
def initUserRegistry (ldapEnabled : Bool) (ldapResult : Except String Unit)
    (st : ServerState) : Except String ServerState :=
  if ldapEnabled then
    match ldapResult with
    | Except.error e => Except.error e
    | Except.ok _ => Except.ok { st with registrySet := true }
  else
    Except.ok { st with registrySet := true }

/-- The tail of `Server.initDB` shared by the three supported backends:
set the certificate-DB accessor, initialize the user registry, and when the
database did not previously exist, load the bootstrap users and
affiliations. -/
def initDBConnected (cfg : ServerConfigM) (dbExisted : Bool)
    (ldapResult : Except String Unit) (insertFails : String → Bool)
    (st : ServerState) : Except String Unit × ServerState :=
  let st1 := { st with certDBSet := true }
  match initUserRegistry cfg.ldapEnabled ldapResult st1 with
  | Except.error e => (Except.error e, st1)
  | Except.ok st2 =>
    if !dbExisted then
      match loadUsersTable cfg.registryMaxEnrollments insertFails st2.registry cfg.identities with
      | Except.error e => (Except.error e, st2)
      | Except.ok reg2 =>
        match loadAffiliationsTableReg cfg.affiliations reg2 with
        | Except.error e => (Except.error e, { st2 with registry := reg2 })
        | Except.ok reg3 => (Except.ok (), { st2 with registry := reg3 })
    else
      (Except.ok (), st2)

/-- The database type after the defaulting at the top of `initDB`. -/
def resolvedDBType (cfg : ServerConfigM) : String :=
  if cfg.db.dbType = "" then "sqlite3" else cfg.db.dbType

/-- The datasource after the defaulting at the top of `initDB`. -/
def resolvedDatasource (cfg : ServerConfigM) : String :=
  if cfg.db.datasource = "" then "fabric-ca-server.db" else cfg.db.datasource

/-- Embeds `Server.initDB` (lib/server.go).  `backend` is the oracle for
the `dbutil.NewUserRegistry*` constructors, returning on success whether
the database already existed.  The `default` branch of the source's switch
rejects every other database type before any state is touched. -/
def initDB (cfg : ServerConfigM) (backend : String → String → Except String Bool)
    (ldapResult : Except String Unit) (insertFails : String → Bool)
    (st : ServerState) : Except String Unit × ServerState :=
  match resolvedDBType cfg with
  | "sqlite3" =>
    match backend "sqlite3" (resolvedDatasource cfg) with
    | Except.error e => (Except.error e, st)
    | Except.ok dbExisted => initDBConnected cfg dbExisted ldapResult insertFails st
  | "postgres" =>
    match backend "postgres" (resolvedDatasource cfg) with
    | Except.error e => (Except.error e, st)
    | Except.ok dbExisted => initDBConnected cfg dbExisted ldapResult insertFails st
  | "mysql" =>
    match backend "mysql" (resolvedDatasource cfg) with
    | Except.error e => (Except.error e, st)
    | Except.ok dbExisted => initDBConnected cfg dbExisted ldapResult insertFails st
  | _ =>
    (Except.error "Invalid db.type in config file; must be sqlite3, postgres, or mysql", st)

/-- Embeds `Server.Init` (lib/server.go): `initConfig`, `initKeyMaterial`,
`initDB` and `initEnrollmentSigner` in order, stopping at the first error.
`initConfigResult` and `signerResult` are oracles for the steps whose
internals the claims do not touch. -/
def serverInit (renew : Bool) (cfg : ServerConfigM) (ca : CAConfig)
    (initConfigResult : Except String Unit) (gen : Option (String × String))
    (backend : String → String → Except String Bool)
    (ldapResult : Except String Unit) (insertFails : String → Bool)
    (signerResult : Except String Unit)
    (fs : FileSystem) (st : ServerState) :
    Except String Unit × FileSystem × ServerState :=
  match initConfigResult with
  | Except.error e => (Except.error e, fs, st)
  | Except.ok _ =>
    match initKeyMaterial renew ca gen fs with
    | Except.error e => (Except.error e, fs, st)
    | Except.ok fs2 =>
      match initDB cfg backend ldapResult insertFails st with
      | (Except.error e, st2) => (Except.error e, fs2, st2)
      | (Except.ok _, st2) =>
        match signerResult with
        | Except.error e => (Except.error e, fs2, st2)
        | Except.ok _ => (Except.ok (), fs2, st2)

/-- Embeds `Server.Start` (lib/server.go): fail if already started,
initialize with `renew = false`, register the handlers (which never
fails), then listen and serve (oracle `listenResult`). -/
def serverStart (listenerActive : Bool) (cfg : ServerConfigM) (ca : CAConfig)
    (initConfigResult : Except String Unit) (gen : Option (String × String))
    (backend : String → String → Except String Bool)
    (ldapResult : Except String Unit) (insertFails : String → Bool)
    (signerResult : Except String Unit) (listenResult : Except String Unit)
    (fs : FileSystem) (st : ServerState) :
    Except String Unit × FileSystem × ServerState :=
  if listenerActive then
    (Except.error "server is already started", fs, st)
  else
    match serverInit false cfg ca initConfigResult gen backend ldapResult
        insertFails signerResult fs st with
    | (Except.error e, fs2, st2) => (Except.error e, fs2, st2)
    | (Except.ok _, fs2, st2) =>
      match listenResult with
      | Except.error e => (Except.error e, fs2, st2)
      | Except.ok _ => (Except.ok (), fs2, st2)

/-! ### Endpoint registration -/

/-- The server mux: a list of (path, handler) bindings; handlers are
abstracted to tokens. -/
abbrev Mux := List (String × String)

/-- Embeds `Server.registerHandler` (lib/server.go): build the handler via
its constructor, wrap it with the authentication wrapper (`authWrapper`, an
oracle for `NewAuthWrapper`, which lives outside the embedded sources), and
on success bind it in the mux. -/
def registerHandler (mux : Mux) (path : String)
    (getHandler : Except String String)
    (authWrapper : String → String → Except String (String × String)) :
    Except String Mux :=
  match getHandler with
  | Except.error e => Except.error ("Endpoint is disabled: " ++ e)
  | Except.ok handler =>
    match authWrapper path handler with
    | Except.error e => Except.error ("Endpoint has been disabled: " ++ e)
    | Except.ok (path2, handler2) => Except.ok (mux ++ [(path2, handler2)])

/-- Embeds `Server.registerHandlerLog` (lib/server.go): an error from
`registerHandler` is only logged as a warning, leaving the mux unchanged. -/
def registerHandlerLog (mux : Mux) (path : String)
    (getHandler : Except String String)
    (authWrapper : String → String → Except String (String × String)) : Mux :=
  match registerHandler mux path getHandler authWrapper with
  | Except.error _ => mux
  | Except.ok mux2 => mux2

/-- The endpoints wired by `Server.registerHandlers`, in source order. -/
def endpointPaths : List String :=
  ["register", "enroll", "reenroll", "revoke", "tcert"]

/-- One `registerHandlerLog` call per endpoint, in order, threading the
mux.  `getHandlerFor` maps each endpoint to the outcome of its handler
constructor. -/
def registerAll (getHandlerFor : String → Except String String)
    (authWrapper : String → String → Except String (String × String))
    (mux : Mux) : List String → Mux
  | [] => mux
  | p :: rest =>
      registerAll getHandlerFor authWrapper
        (registerHandlerLog mux p (getHandlerFor p) authWrapper) rest

/-- Embeds `Server.registerHandlers`: a fresh mux, then one
`registerHandlerLog` call for each of the five endpoints. -/
def registerHandlers (getHandlerFor : String → Except String String)
    (authWrapper : String → String → Except String (String × String)) : Mux :=
  registerAll getHandlerFor authWrapper [] endpointPaths

/-- Whether a call result is an error. -/
def isErr : Except String Unit → Bool
  | Except.error _ => true
  | Except.ok _ => false

/-! ## Theorems -/

/-- C1: the quota policy table rows of `getMaxEnrollments`. -/
theorem getMaxEnrollments_policy (configuredMax requestedMax : Int) :
    (requestedMax < 0 →
      getMaxEnrollments configuredMax requestedMax = Except.ok configuredMax) ∧
    (configuredMax = 0 → 0 ≤ requestedMax →
      getMaxEnrollments configuredMax requestedMax = Except.ok requestedMax) ∧
    (0 < configuredMax → requestedMax = 0 →
      ∃ e, getMaxEnrollments configuredMax requestedMax = Except.error e) ∧
    (0 < configuredMax → configuredMax < requestedMax →
      ∃ e, getMaxEnrollments configuredMax requestedMax = Except.error e) ∧
    (0 < configuredMax → 0 < requestedMax → requestedMax ≤ configuredMax →
      getMaxEnrollments configuredMax requestedMax = Except.ok requestedMax) := by
  refine ⟨fun h => ?_, fun h1 h2 => ?_, fun h1 h2 => ?_, fun h1 h2 => ?_,
    fun h1 h2 h3 => ?_⟩ <;>
    simp only [getMaxEnrollments] <;> split_ifs <;> simp_all <;> omega

/-- Witness for C1: the policy theorem evaluated on the spec's examples. -/
theorem getMaxEnrollments_policy_witness :
    getMaxEnrollments 0 (-1) = Except.ok 0 ∧
    getMaxEnrollments 0 7 = Except.ok 7 ∧
    (∃ e, getMaxEnrollments 5 0 = Except.error e) ∧
    (∃ e, getMaxEnrollments 5 7 = Except.error e) ∧
    getMaxEnrollments 5 3 = Except.ok 3 :=
  ⟨(getMaxEnrollments_policy 0 (-1)).1 (by decide),
   (getMaxEnrollments_policy 0 7).2.1 rfl (by decide),
   (getMaxEnrollments_policy 5 0).2.2.1 (by decide) rfl,
   (getMaxEnrollments_policy 5 7).2.2.2.1 (by decide) (by decide),
   (getMaxEnrollments_policy 5 3).2.2.2.2 (by decide) (by decide) (by decide)⟩

/-- C7: the dotted path of an affiliation node is the bare name at root
level and parent dot name below a non-empty parent. -/
theorem affiliationPath_cases (name parent : String) :
    (parent = "" → affiliationPath name parent = name) ∧
    (parent ≠ "" → affiliationPath name parent = parent ++ "." ++ name) := by
  constructor <;> intro h <;> simp [affiliationPath, h]

/-- Witness for C7: both cases at concrete inputs. -/
theorem affiliationPath_cases_witness :
    affiliationPath "org1" "" = "org1" ∧
    affiliationPath "dept1" "org1" = "org1.dept1" :=
  ⟨(affiliationPath_cases "org1" "").1 rfl,
   (affiliationPath_cases "dept1" "org1").2 (by decide)⟩

/-- C3: with `renew = false` and both CA files present, `initKeyMaterial`
returns success with the file system untouched, so a second run changes
nothing. -/
theorem initKeyMaterial_idempotent (ca : CAConfig) (gen : Option (String × String))
    (fs : FileSystem) (hk : fileExists fs ca.keyfile = true)
    (hc : fileExists fs ca.certfile = true) :
    initKeyMaterial false ca gen fs = Except.ok fs := by
  simp [initKeyMaterial, hk, hc]

/-- Witness for C3: a file system already holding both CA files. -/
theorem initKeyMaterial_idempotent_witness :
    initKeyMaterial false ⟨"ca-key.pem", "ca-cert.pem"⟩ none
      [("ca-key.pem", "KEY", 0o600), ("ca-cert.pem", "CERT", 0o644)] =
      Except.ok [("ca-key.pem", "KEY", 0o600), ("ca-cert.pem", "CERT", 0o644)] :=
  initKeyMaterial_idempotent ⟨"ca-key.pem", "ca-cert.pem"⟩ none
    [("ca-key.pem", "KEY", 0o600), ("ca-cert.pem", "CERT", 0o644)]
    (by decide) (by decide)

/-- C4: `addIdentity` with `errIfFound = false` on an already-registered id
returns success, calls `InsertUser` on nothing, and leaves the registry
as-is. -/
theorem addIdentity_existing_noop (configuredMax : Int) (insertFails : Bool)
    (reg : Registry) (id : ServerConfigIdentity) (u : UserInfo)
    (h : getUser reg id.id = some u) :
    addIdentity configuredMax insertFails reg id false = Except.ok (reg, []) := by
  simp [addIdentity, h]

/-- Witness for C4: re-adding an identity already in the registry. -/
theorem addIdentity_existing_noop_witness :
    addIdentity 0 false
      ⟨[⟨"admin", "pw", "user", "", [], 0⟩], []⟩
      ⟨"admin", "other", "peer", "org1", [], 5⟩ false =
      Except.ok (⟨[⟨"admin", "pw", "user", "", [], 0⟩], []⟩, []) :=
  addIdentity_existing_noop 0 false
    ⟨[⟨"admin", "pw", "user", "", [], 0⟩], []⟩
    ⟨"admin", "other", "peer", "org1", [], 5⟩
    ⟨"admin", "pw", "user", "", [], 0⟩ (by decide)

/-- C5: the `server init` command path (`initMain`) persists the CA private
key with permission mode 0755, not the owner-only 0600 the specification
requires; evaluated on a concrete run. -/
theorem initMain_key_written_world_readable :
    initMain (Except.ok ()) (some ("CERT", "KEY")) "/home/fca" [] =
      Except.ok [("/home/fca/server-cert.pem", "CERT", 0o755),
                 ("/home/fca/server-key.pem", "KEY", 0o755)] ∧
    fileMode [("/home/fca/server-cert.pem", "CERT", 0o755),
              ("/home/fca/server-key.pem", "KEY", 0o755)]
      "/home/fca/server-key.pem" = some 0o755 ∧
    (0o755 : Nat) ≠ 0o600 :=
  ⟨by rfl, by rfl, by decide⟩

/-! ### Affiliation loader: insertion order and totality -/

theorem memB_mono (p : String) (l ins : List String) (h : memB p ins = true) :
    memB p (l ++ ins) = true := by
  induction l with
  | nil => simpa using h
  | cons x rest ih => simp [memB, ih]

theorem rootOrMem_cons (p x : String) (ins : List String)
    (h : (p == "" || memB p ins) = true) :
    (p == "" || memB p (x :: ins)) = true := by
  rcases Bool.or_eq_true_iff.mp h with h1 | h2
  · simp [h1]
  · simp [memB, h2]

theorem rootOrMem_mono (p : String) (l ins : List String)
    (h : (p == "" || memB p ins) = true) :
    (p == "" || memB p (l ++ ins)) = true := by
  rcases Bool.or_eq_true_iff.mp h with h1 | h2
  · simp [h1]
  · simp [memB_mono p l ins h2]

theorem parentsRespected_append (t1 : List (String × String)) (ins : List String)
    (t2 : List (String × String)) :
    parentsRespected ins (t1 ++ t2) =
      (parentsRespected ins t1 &&
        parentsRespected ((pathsOf t1).reverse ++ ins) t2) := by
  induction t1 generalizing ins with
  | nil => simp [parentsRespected, pathsOf]
  | cons a t ih =>
      obtain ⟨path, parent⟩ := a
      simp [parentsRespected, pathsOf, ih (path :: ins), Bool.and_assoc,
        List.append_assoc]

mutual

theorem loadR_parents : ∀ (n : AffNode) (p : String) (ins : List String)
    (tr : List (String × String)), (p == "" || memB p ins) = true →
    loadAffiliationsTableR n p = some tr → parentsRespected ins tr = true
  | AffNode.nullNode, p, ins, tr, hp, h => by
      simp only [loadAffiliationsTableR] at h
      obtain rfl : ([] : List (String × String)) = tr := Option.some.inj h
      simp [parentsRespected]
  | AffNode.str s, p, ins, tr, hp, h => by
      simp only [loadAffiliationsTableR] at h
      obtain rfl : [(affiliationPath s p, p)] = tr := Option.some.inj h
      simp [parentsRespected, hp]
  | AffNode.strList l, p, ins, tr, hp, h => by
      simp only [loadAffiliationsTableR] at h
      exact loadStrList_parents l p ins tr hp h
  | AffNode.seq l, p, ins, tr, hp, h => by
      simp only [loadAffiliationsTableR] at h
      exact loadSeq_parents l p ins tr hp h
  | AffNode.mapping l, p, ins, tr, hp, h => by
      simp only [loadAffiliationsTableR] at h
      exact loadMapping_parents l p ins tr hp h
  | AffNode.other, p, ins, tr, hp, h => by
      simp [loadAffiliationsTableR] at h
termination_by n _ _ _ _ _ => sizeOf n

theorem loadStrList_parents : ∀ (l : List String) (p : String) (ins : List String)
    (tr : List (String × String)), (p == "" || memB p ins) = true →
    loadStrListR l p = some tr → parentsRespected ins tr = true
  | [], p, ins, tr, hp, h => by
      simp only [loadStrListR] at h
      obtain rfl : ([] : List (String × String)) = tr := Option.some.inj h
      simp [parentsRespected]
  | s :: rest, p, ins, tr, hp, h => by
      simp only [loadStrListR, loadAffiliationsTableR] at h
      rcases h2 : loadStrListR rest p with _ | trs
      · rw [h2] at h; exact absurd h (by simp)
      · rw [h2] at h
        obtain rfl : (affiliationPath s p, p) :: trs = tr := by
          simpa using Option.some.inj h
        simp only [parentsRespected, hp, Bool.true_and]
        exact loadStrList_parents rest p (affiliationPath s p :: ins) trs
          (rootOrMem_cons p _ ins hp) h2
termination_by l _ _ _ _ _ => sizeOf l

theorem loadSeq_parents : ∀ (l : List AffNode) (p : String) (ins : List String)
    (tr : List (String × String)), (p == "" || memB p ins) = true →
    loadSeqR l p = some tr → parentsRespected ins tr = true
  | [], p, ins, tr, hp, h => by
      simp only [loadSeqR] at h
      obtain rfl : ([] : List (String × String)) = tr := Option.some.inj h
      simp [parentsRespected]
  | ele :: rest, p, ins, tr, hp, h => by
      simp only [loadSeqR] at h
      rcases h1 : loadAffiliationsTableR ele p with _ | tr1
      · rw [h1] at h; exact absurd h (by simp)
      · rw [h1] at h
        rcases h2 : loadSeqR rest p with _ | trs
        · rw [h2] at h; exact absurd h (by simp)
        · rw [h2] at h
          obtain rfl : tr1 ++ trs = tr := by simpa using Option.some.inj h
          rw [parentsRespected_append]
          rw [loadR_parents ele p ins tr1 hp h1]
          simp only [Bool.true_and]
          exact loadSeq_parents rest p ((pathsOf tr1).reverse ++ ins) trs
            (rootOrMem_mono p _ ins hp) h2
termination_by l _ _ _ _ _ => sizeOf l

theorem loadMapping_parents : ∀ (l : List (String × AffNode)) (p : String)
    (ins : List String) (tr : List (String × String)),
    (p == "" || memB p ins) = true →
    loadMappingR l p = some tr → parentsRespected ins tr = true
  | [], p, ins, tr, hp, h => by
      simp only [loadMappingR] at h
      obtain rfl : ([] : List (String × String)) = tr := Option.some.inj h
      simp [parentsRespected]
  | (name, ele) :: rest, p, ins, tr, hp, h => by
      simp only [loadMappingR] at h
      rcases h1 : loadAffiliationsTableR ele (affiliationPath name p) with _ | tr1
      · rw [h1] at h; exact absurd h (by simp)
      · rw [h1] at h
        rcases h2 : loadMappingR rest p with _ | trs
        · rw [h2] at h; exact absurd h (by simp)
        · rw [h2] at h
          obtain rfl : (affiliationPath name p, p) :: (tr1 ++ trs) = tr := by
            simpa using Option.some.inj h
          simp only [parentsRespected, hp, Bool.true_and]
          rw [parentsRespected_append]
          have hmem : (affiliationPath name p == "" ||
              memB (affiliationPath name p) (affiliationPath name p :: ins)) = true := by
            simp [memB]
          rw [loadR_parents ele (affiliationPath name p)
            (affiliationPath name p :: ins) tr1 hmem h1]
          simp only [Bool.true_and]
          exact loadMapping_parents rest p
            ((pathsOf tr1).reverse ++ (affiliationPath name p :: ins)) trs
            (rootOrMem_mono p _ _ (rootOrMem_cons p _ ins hp)) h2
termination_by l _ _ _ _ _ => sizeOf l

end

/-- C2: on any nested affiliation tree the loader processes without a
panic, every inserted affiliation's parent path is either empty (root
level) or was itself inserted strictly earlier in the insertion trace. -/
theorem loadAffiliationsTable_parents_first (tree : AffNode)
    (tr : List (String × String)) (h : loadAffiliationsTable tree = some tr) :
    parentsRespected [] tr = true :=
  loadR_parents tree "" [] tr (by simp) h

/-- Witness for C2: a two-level bootstrap tree and its insertion trace. -/
theorem loadAffiliationsTable_parents_first_witness :
    parentsRespected []
      [("org1", ""), ("org1.dept1", "org1"), ("org1.dept2", "org1"),
       ("org2", "")] = true :=
  loadAffiliationsTable_parents_first
    (AffNode.mapping [("org1", AffNode.strList ["dept1", "dept2"]),
      ("org2", AffNode.nullNode)]) _
    (by simp [loadAffiliationsTable, loadAffiliationsTableR, loadMappingR,
      loadStrListR, affiliationPath])

mutual

theorem loadR_total : ∀ (n : AffNode) (p : String),
    AffNode.supported n = true → (loadAffiliationsTableR n p).isSome = true
  | AffNode.nullNode, p, _ => by simp [loadAffiliationsTableR]
  | AffNode.str s, p, _ => by simp [loadAffiliationsTableR]
  | AffNode.strList l, p, _ => by
      simp only [loadAffiliationsTableR]
      exact loadStrList_total l p
  | AffNode.seq l, p, hs => by
      simp only [loadAffiliationsTableR]
      simp only [AffNode.supported] at hs
      exact loadSeq_total l p hs
  | AffNode.mapping l, p, hs => by
      simp only [loadAffiliationsTableR]
      simp only [AffNode.supported] at hs
      exact loadMapping_total l p hs
  | AffNode.other, p, hs => by simp [AffNode.supported] at hs
termination_by n _ _ => sizeOf n

theorem loadStrList_total : ∀ (l : List String) (p : String),
    (loadStrListR l p).isSome = true
  | [], p => by simp [loadStrListR]
  | s :: rest, p => by
      simp only [loadStrListR, loadAffiliationsTableR]
      cases h2 : loadStrListR rest p with
      | none =>
          have h := loadStrList_total rest p
          rw [h2] at h
          simp at h
      | some trs => simp
termination_by l _ => sizeOf l

theorem loadSeq_total : ∀ (l : List AffNode) (p : String),
    supportedSeq l = true → (loadSeqR l p).isSome = true
  | [], p, _ => by simp [loadSeqR]
  | ele :: rest, p, hs => by
      simp only [supportedSeq, Bool.and_eq_true] at hs
      simp only [loadSeqR]
      cases h1 : loadAffiliationsTableR ele p with
      | none =>
          have h := loadR_total ele p hs.1
          rw [h1] at h
          simp at h
      | some tr1 =>
          cases h2 : loadSeqR rest p with
          | none =>
              have h := loadSeq_total rest p hs.2
              rw [h2] at h
              simp at h
          | some trs => simp
termination_by l _ _ => sizeOf l

theorem loadMapping_total : ∀ (l : List (String × AffNode)) (p : String),
    supportedMap l = true → (loadMappingR l p).isSome = true
  | [], p, _ => by simp [loadMappingR]
  | (name, ele) :: rest, p, hs => by
      simp only [supportedMap, Bool.and_eq_true] at hs
      simp only [loadMappingR]
      cases h1 : loadAffiliationsTableR ele (affiliationPath name p) with
      | none =>
          have h := loadR_total ele (affiliationPath name p) hs.1
          rw [h1] at h
          simp at h
      | some tr1 =>
          cases h2 : loadMappingR rest p with
          | none =>
              have h := loadMapping_total rest p hs.2
              rw [h2] at h
              simp at h
          | some trs => simp
termination_by l _ _ => sizeOf l

end

/-- C9: the loader succeeds on every node built from the five handled
dynamic shapes, and panics (modelled as `none`) on every node of any other
dynamic type, because the `default` branch performs an unchecked type
assertion. -/
theorem loadAffiliationsTableR_totality (n : AffNode) (p : String) :
    (∀ q, loadAffiliationsTableR AffNode.other q = none) ∧
    (AffNode.supported n = true → ∃ tr, loadAffiliationsTableR n p = some tr) := by
  constructor
  · intro q
    simp [loadAffiliationsTableR]
  · intro hs
    have h := loadR_total n p hs
    cases hh : loadAffiliationsTableR n p with
    | none => rw [hh] at h; simp at h
    | some tr => exact ⟨tr, rfl⟩

/-- Witness for C9: a supported tree loads successfully while an
unsupported node (for example an integer) panics. -/
theorem loadAffiliationsTableR_totality_witness :
    (∀ q, loadAffiliationsTableR AffNode.other q = none) ∧
    (∃ tr, loadAffiliationsTableR (AffNode.seq [AffNode.str "org1"]) "" = some tr) :=
  ⟨(loadAffiliationsTableR_totality (AffNode.seq [AffNode.str "org1"]) "").1,
   (loadAffiliationsTableR_totality (AffNode.seq [AffNode.str "org1"]) "").2
     (by simp [AffNode.supported, supportedSeq])⟩

/-! ### Endpoint registration and startup -/

theorem registerAll_skip (ctors : String → Except String String)
    (wrap : String → String → Except String (String × String)) (p e : String)
    (hc : ctors p = Except.error e) :
    ∀ (eps1 : List String) (mux : Mux) (eps2 : List String),
    registerAll ctors wrap mux (eps1 ++ p :: eps2) =
      registerAll ctors wrap mux (eps1 ++ eps2) := by
  intro eps1
  induction eps1 with
  | nil =>
      intro mux eps2
      simp only [List.nil_append, registerAll]
      have hskip : registerHandlerLog mux p (ctors p) wrap = mux := by
        simp [registerHandlerLog, registerHandler, hc]
      rw [hskip]
  | cons q rest ih =>
      intro mux eps2
      simp only [List.cons_append, registerAll]
      exact ih _ _

/-- C8: an endpoint whose handler constructor errors is never bound in the
mux (`registerHandlerLog` leaves it unchanged, only logging a warning), and
dropping that endpoint from any registration sequence changes nothing for
the remaining endpoints — registration never propagates an error. -/
theorem registerHandlerLog_ctor_error_nonfatal
    (ctors : String → Except String String)
    (wrap : String → String → Except String (String × String))
    (mux : Mux) (p e : String) (eps1 eps2 : List String)
    (hc : ctors p = Except.error e) :
    registerHandlerLog mux p (ctors p) wrap = mux ∧
    registerAll ctors wrap mux (eps1 ++ p :: eps2) =
      registerAll ctors wrap mux (eps1 ++ eps2) := by
  constructor
  · simp [registerHandlerLog, registerHandler, hc]
  · exact registerAll_skip ctors wrap p e hc eps1 mux eps2

/-- Witness for C8: the tcert constructor fails; the endpoint is skipped
and the other endpoints register identically. -/
theorem registerHandlerLog_ctor_error_nonfatal_witness :
    registerHandlerLog [] "tcert"
      ((fun q => if q == "tcert" then Except.error "unavailable" else Except.ok q)
        "tcert")
      (fun q h => Except.ok (q, h)) = [] ∧
    registerAll
      (fun q => if q == "tcert" then Except.error "unavailable" else Except.ok q)
      (fun q h => Except.ok (q, h)) []
      (["register", "enroll"] ++ "tcert" :: ["revoke"]) =
    registerAll
      (fun q => if q == "tcert" then Except.error "unavailable" else Except.ok q)
      (fun q h => Except.ok (q, h)) [] (["register", "enroll"] ++ ["revoke"]) :=
  registerHandlerLog_ctor_error_nonfatal
    (fun q => if q == "tcert" then Except.error "unavailable" else Except.ok q)
    (fun q h => Except.ok (q, h)) [] "tcert" "unavailable"
    ["register", "enroll"] ["revoke"] (by rfl)

/-! ### Database initialization -/

theorem initDBConnected_existing_registry (cfg : ServerConfigM)
    (ldapResult : Except String Unit) (insertFails : String → Bool)
    (st : ServerState) :
    (initDBConnected cfg true ldapResult insertFails st).2.registry = st.registry := by
  unfold initDBConnected initUserRegistry
  cases hl : cfg.ldapEnabled <;> cases ldapResult <;> simp [hl]

/-- C10: when the backend reports that the database already existed,
`initDB` never runs `loadUsersTable` or `loadAffiliationsTable`: the
registry contents (users and affiliations tables) after `initDB` are
exactly those before, whatever bootstrap identities or affiliation tree the
configuration carries; and with LDAP disabled the call also succeeds. -/
theorem initDB_existing_db_skips_bootstrap (cfg : ServerConfigM)
    (backend : String → String → Except String Bool)
    (ldapResult : Except String Unit) (insertFails : String → Bool)
    (st : ServerState)
    (hb : backend (resolvedDBType cfg) (resolvedDatasource cfg) = Except.ok true) :
    (initDB cfg backend ldapResult insertFails st).2.registry = st.registry ∧
    (cfg.ldapEnabled = false →
      (resolvedDBType cfg = "sqlite3" ∨ resolvedDBType cfg = "postgres" ∨
        resolvedDBType cfg = "mysql") →
      (initDB cfg backend ldapResult insertFails st).1 = Except.ok ()) := by
  constructor
  · unfold initDB
    split
    all_goals rename_i heq
    · rw [heq] at hb
      rw [hb]
      exact initDBConnected_existing_registry cfg ldapResult insertFails st
    · rw [heq] at hb
      rw [hb]
      exact initDBConnected_existing_registry cfg ldapResult insertFails st
    · rw [heq] at hb
      rw [hb]
      exact initDBConnected_existing_registry cfg ldapResult insertFails st
    · rfl
  · intro hl hv
    unfold initDB
    split
    all_goals rename_i heq
    · rw [heq] at hb
      rw [hb]
      simp [initDBConnected, initUserRegistry, hl]
    · rw [heq] at hb
      rw [hb]
      simp [initDBConnected, initUserRegistry, hl]
    · rw [heq] at hb
      rw [hb]
      simp [initDBConnected, initUserRegistry, hl]
    · exfalso
      rcases hv with h | h | h <;> simp_all

/-- Witness for C10: an existing sqlite3 database with configured bootstrap
identities and affiliations; the registry is untouched and `initDB`
succeeds. -/
theorem initDB_existing_db_skips_bootstrap_witness :
    (initDB
        ⟨⟨"sqlite3", "fca.db"⟩, 3, [⟨"admin", "pw", "user", "org1", [], -1⟩],
          AffNode.str "org1", false⟩
        (fun _ _ => Except.ok true) (Except.ok ()) (fun _ => false)
        ⟨⟨[⟨"old", "pw", "user", "", [], 0⟩], [("org9", "")]⟩, false, false⟩).2.registry =
      (⟨[⟨"old", "pw", "user", "", [], 0⟩], [("org9", "")]⟩ : Registry) ∧
    ((initDB
        ⟨⟨"sqlite3", "fca.db"⟩, 3, [⟨"admin", "pw", "user", "org1", [], -1⟩],
          AffNode.str "org1", false⟩
        (fun _ _ => Except.ok true) (Except.ok ()) (fun _ => false)
        ⟨⟨[⟨"old", "pw", "user", "", [], 0⟩], [("org9", "")]⟩, false, false⟩).1 =
      Except.ok ()) :=
  ⟨(initDB_existing_db_skips_bootstrap _ _ _ _ _ (by rfl)).1,
   (initDB_existing_db_skips_bootstrap _ _ _ _ _ (by rfl)).2 rfl (Or.inl (by rfl))⟩

/-- C6: a configured database type outside sqlite3/postgres/mysql (after
empty defaults to sqlite3) makes `initDB` return the invalid-type error
with the server state untouched — no certificate-store or registry
initialization — and consequently `Server.Init` and `Server.Start` return
an error for every outcome of the other startup steps. -/
theorem initDB_invalid_backend (cfg : ServerConfigM)
    (backend : String → String → Except String Bool)
    (ldapResult : Except String Unit) (insertFails : String → Bool)
    (st : ServerState)
    (h1 : resolvedDBType cfg ≠ "sqlite3") (h2 : resolvedDBType cfg ≠ "postgres")
    (h3 : resolvedDBType cfg ≠ "mysql") :
    initDB cfg backend ldapResult insertFails st =
      (Except.error "Invalid db.type in config file; must be sqlite3, postgres, or mysql",
        st) ∧
    (∀ (renew : Bool) (ca : CAConfig) (icr : Except String Unit)
      (gen : Option (String × String)) (sr : Except String Unit) (fs : FileSystem),
      isErr (serverInit renew cfg ca icr gen backend ldapResult insertFails
        sr fs st).1 = true) ∧
    (∀ (la : Bool) (ca : CAConfig) (icr : Except String Unit)
      (gen : Option (String × String)) (sr lr : Except String Unit) (fs : FileSystem),
      isErr (serverStart la cfg ca icr gen backend ldapResult insertFails
        sr lr fs st).1 = true) := by
  have hdb : initDB cfg backend ldapResult insertFails st =
      (Except.error "Invalid db.type in config file; must be sqlite3, postgres, or mysql",
        st) := by
    unfold initDB
    split <;> simp_all
  have hinit : ∀ (renew : Bool) (ca : CAConfig) (icr : Except String Unit)
      (gen : Option (String × String)) (sr : Except String Unit) (fs : FileSystem),
      isErr (serverInit renew cfg ca icr gen backend ldapResult insertFails
        sr fs st).1 = true := by
    intro renew ca icr gen sr fs
    cases icr with
    | error e => simp [serverInit, isErr]
    | ok _ =>
      cases hkm : initKeyMaterial renew ca gen fs with
      | error e => simp [serverInit, hkm, isErr]
      | ok fs2 => simp [serverInit, hkm, hdb, isErr]
  refine ⟨hdb, hinit, ?_⟩
  intro la ca icr gen sr lr fs
  cases la with
  | true => simp [serverStart, isErr]
  | false =>
    have h := hinit false ca icr gen sr fs
    rcases hsi : serverInit false cfg ca icr gen backend ldapResult insertFails
        sr fs st with ⟨res, fs2, st2⟩
    rw [hsi] at h
    cases res with
    | error e => simp [serverStart, hsi, isErr]
    | ok _ => simp [isErr] at h

/-- Witness for C6: database type "oracle" makes `initDB`, `Init` and
`Start` fail on a concrete configuration. -/
theorem initDB_invalid_backend_witness :
    initDB ⟨⟨"oracle", "db"⟩, 0, [], AffNode.nullNode, false⟩
      (fun _ _ => Except.ok false) (Except.ok ()) (fun _ => false)
      ⟨⟨[], []⟩, false, false⟩ =
      (Except.error "Invalid db.type in config file; must be sqlite3, postgres, or mysql",
        ⟨⟨[], []⟩, false, false⟩) ∧
    (∀ (renew : Bool) (ca : CAConfig) (icr : Except String Unit)
      (gen : Option (String × String)) (sr : Except String Unit) (fs : FileSystem),
      isErr (serverInit renew ⟨⟨"oracle", "db"⟩, 0, [], AffNode.nullNode, false⟩ ca
        icr gen (fun _ _ => Except.ok false) (Except.ok ()) (fun _ => false)
        sr fs ⟨⟨[], []⟩, false, false⟩).1 = true) ∧
    (∀ (la : Bool) (ca : CAConfig) (icr : Except String Unit)
      (gen : Option (String × String)) (sr lr : Except String Unit) (fs : FileSystem),
      isErr (serverStart la ⟨⟨"oracle", "db"⟩, 0, [], AffNode.nullNode, false⟩ ca
        icr gen (fun _ _ => Except.ok false) (Except.ok ()) (fun _ => false)
        sr lr fs ⟨⟨[], []⟩, false, false⟩).1 = true) :=
  initDB_invalid_backend ⟨⟨"oracle", "db"⟩, 0, [], AffNode.nullNode, false⟩
    (fun _ _ => Except.ok false) (Except.ok ()) (fun _ => false)
    ⟨⟨[], []⟩, false, false⟩ (by decide) (by decide) (by decide)

end FabricCA
